import Mathlib

/-!
Verification development for `src/icon/generate_icon_variants.py`.

Python's float arithmetic is modelled by exact rational arithmetic over `ℚ`;
Python's `round` (round half to even) is modelled by `pyRound`, and the
truncating conversion `int()` by `pyInt`.  PIL images are modelled as a
width, a height and a total pixel function returning an (R, G, B) triple of
naturals.  PIL's resampling kernels (`Image.resize` with BILINEAR or LANCZOS
filters) are floating-point convolutions whose exact pixel values no stated
property depends on; resampling is therefore abstracted as an explicit
`resample` parameter that produces the pixel function of a resized image,
while the resized image has exactly the requested dimensions, as PIL
guarantees.  Everything else is translated directly from the source.
-/

/-- Python `round` with no digits argument: round half to even. -/
def pyRound (q : ℚ) : ℤ := if Int.fract q = 1/2 then 2 * round (q / 2) else round q

/-- Python `int()` applied to a float: truncation toward zero. -/
def pyInt (q : ℚ) : ℤ := if q < 0 then -⌊-q⌋ else ⌊q⌋

lemma pyInt_of_nonneg {q : ℚ} (h : 0 ≤ q) : pyInt q = ⌊q⌋ := by
  unfold pyInt
  rw [if_neg (not_lt.mpr h)]

lemma pyRound_half_cases (q : ℚ) (h : Int.fract q = 1/2) :
    (pyRound q : ℚ) = q - 1/2 ∨ (pyRound q : ℚ) = q + 1/2 := by
  have hq : (⌊q⌋ : ℚ) + 1/2 = q := by
    have h0 := Int.floor_add_fract q
    rw [h] at h0
    exact h0
  unfold pyRound
  rw [if_pos h]
  rcases Int.even_or_odd ⌊q⌋ with ⟨k, hk⟩ | ⟨k, hk⟩
  · left
    have h2 : q / 2 = (k : ℚ) + 1/4 := by
      rw [← hq, hk]
      push_cast
      ring
    have h3 : round (q / 2) = k := by
      rw [h2, add_comm, round_add_int]
      norm_num [round_eq]
    rw [h3, ← hq, hk]
    push_cast
    ring
  · right
    have h2 : q / 2 = (k : ℚ) + 3/4 := by
      rw [← hq, hk]
      push_cast
      ring
    have h3 : round (q / 2) = k + 1 := by
      rw [h2, add_comm, round_add_int]
      norm_num [round_eq]
      omega
    rw [h3, ← hq, hk]
    push_cast
    ring

lemma pyRound_le (q : ℚ) : (pyRound q : ℚ) ≤ q + 1/2 := by
  by_cases h : Int.fract q = 1/2
  · rcases pyRound_half_cases q h with h1 | h1 <;> rw [h1] <;> linarith
  · unfold pyRound
    rw [if_neg h]
    have h2 := abs_sub_round q
    rw [abs_le] at h2
    linarith [h2.2]

lemma le_pyRound (q : ℚ) : q - 1/2 ≤ (pyRound q : ℚ) := by
  by_cases h : Int.fract q = 1/2
  · rcases pyRound_half_cases q h with h1 | h1 <;> rw [h1] <;> linarith
  · unfold pyRound
    rw [if_neg h]
    have h2 := abs_sub_round q
    rw [abs_le] at h2
    linarith [h2.1]

lemma pyRound_intCast (n : ℤ) : pyRound (n : ℚ) = n := by
  unfold pyRound
  rw [if_neg, round_intCast]
  rw [Int.fract_intCast]
  norm_num

lemma pyRound_natCast (n : ℕ) : pyRound (n : ℚ) = n := by
  have h := pyRound_intCast (n : ℤ)
  push_cast at h
  exact_mod_cast h

lemma pyRound_nonneg {q : ℚ} (h : 0 ≤ q) : 0 ≤ pyRound q := by
  have h1 := le_pyRound q
  have h2 : ((-1 : ℤ) : ℚ) < (pyRound q : ℚ) := by
    push_cast
    linarith
  have h3 : (-1 : ℤ) < pyRound q := by exact_mod_cast h2
  omega

/-! ## Data model -/

/-- An RGB pixel: channel values in [0, 255] in actual use. -/
abbrev RGB := ℕ × ℕ × ℕ

/-- A PIL RGB image: a width, a height and a (total) pixel lookup function.
Only arguments `x < width`, `y < height` are meaningful. -/
structure Image where
  width : ℕ
  height : ℕ
  pixel : ℕ → ℕ → RGB

/-- The host resampler: given an image and a requested width and height,
produce the pixel function of the resized image.  This abstracts PIL's
`Image.resize` (BILINEAR and LANCZOS filters), whose floating-point kernels
no stated property depends on. -/
abbrev Resampler := Image → ℕ → ℕ → (ℕ → ℕ → RGB)

/-! ## Constants (source lines 25-33) -/

def TARGET_SIZE : ℕ := 1024
def CROP_SAT_THRESH : ℚ := 0.035
def CROP_LUM_THRESH : ℚ := 220.0
def CROP_INSET_PERCENT : ℚ := 6.0
def CROP_DOWNSCALE_MAX : ℕ := 700

/-! ## Pixel helpers (source lines 56-62) -/

/-- Source `_luminance`: `0.299 * r + 0.587 * g + 0.114 * b`. -/
def _luminance (r g b : ℕ) : ℚ := 0.299 * (r : ℚ) + 0.587 * (g : ℚ) + 0.114 * (b : ℚ)

/-- Source `_is_orange_accent`: `r > 170 and g > 80 and b < 140 and (r - b) > 80`.
Python subtraction on ints is modelled in `ℤ`. -/
def _is_orange_accent (r g b : ℕ) : Bool :=
  decide (r > 170) && decide (g > 80) && decide (b < 140) && decide ((r : ℤ) - (b : ℤ) > 80)

/-- Source `is_foreground_pixel` (lines 163-174). -/
def is_foreground_pixel (r g b : ℕ) : Bool :=
  if _is_orange_accent r g b then true
  else decide (_luminance r g b < 205)

/-! ## Dark gradient background (source lines 35-53) -/

/-- One channel of the per-row gradient color:
`int(top + (bottom - top) * ratio)` with `ratio = y / height`. -/
def gradChan (t bt : ℤ) (height y : ℕ) : ℤ :=
  pyInt ((t : ℚ) + ((bt : ℚ) - (t : ℚ)) * ((y : ℚ) / (height : ℚ)))

/-- Source `create_dark_gradient`: every pixel of row `y` gets the color
interpolated between `(49, 49, 49)` (top) and `(20, 20, 20)` (bottom). -/
def create_dark_gradient (size : ℕ × ℕ) : Image :=
  ⟨size.1, size.2, fun _ y =>
    ((gradChan 49 20 size.2 y).toNat, (gradChan 49 20 size.2 y).toNat,
     (gradChan 49 20 size.2 y).toNat)⟩

/-! ## Recolorers (source lines 177-252) -/

/-- Source `create_dark_icon`: start from the dark gradient; pixels that are
not foreground keep the gradient (the loop `continue`s over them). -/
def create_dark_icon (src : Image) : Image :=
  ⟨src.width, src.height, fun x y =>
    let r := (src.pixel x y).1
    let g := (src.pixel x y).2.1
    let b := (src.pixel x y).2.2
    if is_foreground_pixel r g b then
      if _is_orange_accent r g b then
        ((min 255 (pyInt ((r : ℚ) * 1.05))).toNat, (min 255 (pyInt ((g : ℚ) * 1.05))).toNat, b)
      else if _luminance r g b < 120 then (240, 240, 240)
      else
        ((max 70 (min 140 (pyInt (_luminance r g b * 0.55)))).toNat,
         (max 70 (min 140 (pyInt (_luminance r g b * 0.55)))).toNat,
         (max 70 (min 140 (pyInt (_luminance r g b * 0.55)))).toNat)
    else (create_dark_gradient (src.width, src.height)).pixel x y⟩

/-- Source `create_tinted_icon`: start from a solid black image; pixels that
are not foreground stay black (the loop `continue`s over them). -/
def create_tinted_icon (src : Image) : Image :=
  ⟨src.width, src.height, fun x y =>
    let r := (src.pixel x y).1
    let g := (src.pixel x y).2.1
    let b := (src.pixel x y).2.2
    if is_foreground_pixel r g b then
      if _is_orange_accent r g b then (255, 255, 255)
      else if _luminance r g b < 120 then (255, 255, 255)
      else
        ((max 140 (min 220 (pyInt (_luminance r g b)))).toNat,
         (max 140 (min 220 (pyInt (_luminance r g b)))).toNat,
         (max 140 (min 220 (pyInt (_luminance r g b)))).toNat)
    else (0, 0, 0)⟩

/-! ## Tile cropper: downscale geometry (source lines 82-91) -/

/-- Source line 85: `scale = min(1.0, float(downscale_max) / float(max(w, h)))`. -/
def cropScale (w h : ℕ) : ℚ := min 1 ((CROP_DOWNSCALE_MAX : ℚ) / ((max w h : ℕ) : ℚ))

/-- Source lines 86-87: `max(1, int(round(d * scale)))`. -/
def scaledDim (d : ℕ) (scale : ℚ) : ℕ := max 1 (pyRound ((d : ℚ) * scale)).toNat

/-- Width of the downscaled scan image. -/
def smallW (img : Image) : ℕ := scaledDim img.width (cropScale img.width img.height)

/-- Height of the downscaled scan image. -/
def smallH (img : Image) : ℕ := scaledDim img.height (cropScale img.width img.height)

/-- Pixel function of the downscaled scan image (source line 88,
`rgb.resize((sw, sh), Image.Resampling.BILINEAR)`). -/
def smallPx (resample : Resampler) (img : Image) : ℕ → ℕ → RGB :=
  resample img (smallW img) (smallH img)

/-! ## Tile cropper: per-pixel scan (source lines 94-110) -/

/-- A pixel is "of interest" when `sat > sat_thresh or lum < lum_thresh`
with `sat = (max_c - min_c) / 255.0 if max_c > 0 else 0.0` (lines 96-102). -/
def ofInterest (p : RGB) : Bool :=
  let r := p.1
  let g := p.2.1
  let b := p.2.2
  let lum := _luminance r g b
  let max_c := max r (max g b)
  let min_c := min r (min g b)
  let sat : ℚ := if max_c > 0 then ((max_c - min_c : ℕ) : ℚ) / 255 else 0
  decide (sat > CROP_SAT_THRESH) || decide (lum < CROP_LUM_THRESH)

/-- The tracked bounding box of the scan (`min_x, min_y, max_x, max_y`). -/
structure Box where
  min_x : ℕ
  min_y : ℕ
  max_x : ℕ
  max_y : ℕ
deriving DecidableEq

/-- One step of the scan loop body (lines 102-110): an of-interest pixel
shrinks `min_x`/`min_y` and grows `max_x`/`max_y`. -/
def scanStep (px : ℕ → ℕ → RGB) (st : Box) (p : ℕ × ℕ) : Box :=
  if ofInterest (px p.1 p.2) then
    ⟨min st.min_x p.1, min st.min_y p.2, max st.max_x p.1, max st.max_y p.2⟩
  else st

/-- Row-major traversal order of the scan loops (`for y ... for x ...`). -/
def scanPositions (sw sh : ℕ) : List (ℕ × ℕ) :=
  (List.range sh).flatMap fun y => (List.range sw).map fun x => (x, y)

/-- The bounding box produced by the scan, starting from
`min_x, min_y = sw, sh` and `max_x, max_y = 0, 0` (line 91). -/
def scanBox (px : ℕ → ℕ → RGB) (sw sh : ℕ) : Box :=
  (scanPositions sw sh).foldl (scanStep px) ⟨sw, sh, 0, 0⟩

/-- The box tracked by the cropper's scan for a given source image. -/
def cropBox (resample : Resampler) (img : Image) : Box :=
  scanBox (smallPx resample img) (smallW img) (smallH img)

/-! ## Tile cropper: square rect computation (source lines 115-143) -/

/-- Source line 116: `inv = 1.0 / scale`. -/
def cropInv (scale : ℚ) : ℚ := 1 / scale

/-- Source line 117: `left = int(round(min_x * inv))`. -/
def rawLeft (inv : ℚ) (B : Box) : ℤ := pyRound ((B.min_x : ℚ) * inv)

/-- Source line 118: `top = int(round(min_y * inv))`. -/
def rawTop (inv : ℚ) (B : Box) : ℤ := pyRound ((B.min_y : ℚ) * inv)

/-- Source line 119: `right = int(round((max_x + 1) * inv))`. -/
def rawRight (inv : ℚ) (B : Box) : ℤ := pyRound (((B.max_x : ℚ) + 1) * inv)

/-- Source line 120: `bottom = int(round((max_y + 1) * inv))`. -/
def rawBottom (inv : ℚ) (B : Box) : ℤ := pyRound (((B.max_y : ℚ) + 1) * inv)

/-- Source line 123: `side = max(right - left, bottom - top)` (before inset). -/
def boxSide (inv : ℚ) (B : Box) : ℤ :=
  max (rawRight inv B - rawLeft inv B) (rawBottom inv B - rawTop inv B)

/-- Source line 124: `inset_px = int(round(side * (inset_percent / 100.0)))`. -/
def insetPx (inv : ℚ) (B : Box) : ℤ :=
  pyRound ((boxSide inv B : ℚ) * (CROP_INSET_PERCENT / 100))

/-- Source line 125: `left += inset_px`. -/
def insLeft (inv : ℚ) (B : Box) : ℤ := rawLeft inv B + insetPx inv B

/-- Source line 126: `top += inset_px`. -/
def insTop (inv : ℚ) (B : Box) : ℤ := rawTop inv B + insetPx inv B

/-- Source line 127: `right -= inset_px`. -/
def insRight (inv : ℚ) (B : Box) : ℤ := rawRight inv B - insetPx inv B

/-- Source line 128: `bottom -= inset_px`. -/
def insBottom (inv : ℚ) (B : Box) : ℤ := rawBottom inv B - insetPx inv B

/-- Source line 131: `cx = (left + right) / 2.0` (on the inset box). -/
def cxOf (inv : ℚ) (B : Box) : ℚ := ((insLeft inv B : ℚ) + (insRight inv B : ℚ)) / 2

/-- Source line 132: `cy = (top + bottom) / 2.0` (on the inset box). -/
def cyOf (inv : ℚ) (B : Box) : ℚ := ((insTop inv B : ℚ) + (insBottom inv B : ℚ)) / 2

/-- Source line 133: `side2 = max(right - left, bottom - top)` (after inset). -/
def side2Of (inv : ℚ) (B : Box) : ℤ :=
  max (insRight inv B - insLeft inv B) (insBottom inv B - insTop inv B)

/-- Source line 135: `sq_left = int(round(cx - side2 / 2.0))`. -/
def sqLeft0 (inv : ℚ) (B : Box) : ℤ := pyRound (cxOf inv B - (side2Of inv B : ℚ) / 2)

/-- Source line 136: `sq_top = int(round(cy - side2 / 2.0))`. -/
def sqTop0 (inv : ℚ) (B : Box) : ℤ := pyRound (cyOf inv B - (side2Of inv B : ℚ) / 2)

/-- Source line 137: `sq_right = sq_left + int(round(side2))`; `side2` is an
integer, so `int(round(side2)) = side2`. -/
def sqRight0 (inv : ℚ) (B : Box) : ℤ := sqLeft0 inv B + side2Of inv B

/-- Source line 138: `sq_bottom = sq_top + int(round(side2))`. -/
def sqBottom0 (inv : ℚ) (B : Box) : ℤ := sqTop0 inv B + side2Of inv B

/-- Source lines 140-143: clamp the square to the image bounds.  Returns
`(sq_left, sq_top, sq_right, sq_bottom)` after clamping. -/
def cropRect (w h : ℕ) (scale : ℚ) (B : Box) : ℤ × ℤ × ℤ × ℤ :=
  (max 0 (sqLeft0 (cropInv scale) B), max 0 (sqTop0 (cropInv scale) B),
   min (w : ℤ) (sqRight0 (cropInv scale) B), min (h : ℤ) (sqBottom0 (cropInv scale) B))

/-- The clamped square-crop rectangle the cropper uses for a source image. -/
def cropRectOf (resample : Resampler) (img : Image) : ℤ × ℤ × ℤ × ℤ :=
  cropRect img.width img.height (cropScale img.width img.height) (cropBox resample img)

/-! ## Tile cropper: crop, pad, assembly (source lines 145-155) -/

/-- PIL `Image.crop((l, t, r, b))`: size `(r - l, b - t)`, pixel `(x, y)`
reads source pixel `(x + l, y + t)` (in-bounds in all uses below). -/
def pilCrop (img : Image) (l t r b : ℤ) : Image :=
  ⟨(r - l).toNat, (b - t).toNat, fun x y => img.pixel ((x + l).toNat) ((y + t).toNat)⟩

/-- Source lines 147-153: if the clamped crop is not square, center it on a
white canvas whose side is the larger dimension. -/
def padToSquareWhite (img : Image) : Image :=
  if img.width = img.height then img
  else
    let new_side := max img.width img.height
    let ox := (new_side - img.width) / 2
    let oy := (new_side - img.height) / 2
    ⟨new_side, new_side, fun x y =>
      if ox ≤ x ∧ x < ox + img.width ∧ oy ≤ y ∧ y < oy + img.height then
        img.pixel (x - ox) (y - oy)
      else (255, 255, 255)⟩

/-- The non-degenerate branch of the cropper: crop to the clamped square
rect, then pad to square with white. -/
def cropBranch (img : Image) (rect : ℤ × ℤ × ℤ × ℤ) : Image :=
  padToSquareWhite (pilCrop img rect.1 rect.2.1 rect.2.2.1 rect.2.2.2)

/-- Source `crop_to_gradient_tile_square` (lines 65-155), at the default
thresholds.  `img.convert("RGB")` is the identity here since images are
already RGB; the degenerate test is line 112: `max_x <= min_x or
max_y <= min_y`, returning the source image unchanged. -/
def crop_to_gradient_tile_square (resample : Resampler) (img : Image) : Image :=
  if (cropBox resample img).max_x ≤ (cropBox resample img).min_x ∨
     (cropBox resample img).max_y ≤ (cropBox resample img).min_y then img
  else cropBranch img (cropRectOf resample img)

/-- Source `create_light_icon` (lines 158-160): crop, then resize to
`TARGET_SIZE` x `TARGET_SIZE` (LANCZOS, via the abstract resampler). -/
def create_light_icon (resample : Resampler) (img : Image) : Image :=
  ⟨TARGET_SIZE, TARGET_SIZE,
   resample (crop_to_gradient_tile_square resample img) TARGET_SIZE TARGET_SIZE⟩

/-! ## Concrete instances used for witnesses and counterexamples -/

/-- A concrete nearest-neighbor resampler; on a same-size resize it is the
identity, matching any PIL filter there. -/
def resampleNearest : Resampler :=
  fun img sw sh x y => img.pixel (x * img.width / sw) (y * img.height / sh)

/-- A 2-wide, 1-high uniformly white image. -/
def white2x1 : Image := ⟨2, 1, fun _ _ => (255, 255, 255)⟩

/-- A 3 x 3 uniformly white image. -/
def white3x3 : Image := ⟨3, 3, fun _ _ => (255, 255, 255)⟩

/-- A 4 x 4 uniformly black image. -/
def black4x4 : Image := ⟨4, 4, fun _ _ => (0, 0, 0)⟩

/-- A 3 x 3 white image with a single black pixel at (1, 1). -/
def img1dot : Image := ⟨3, 3, fun x y => if x = 1 ∧ y = 1 then (0, 0, 0) else (255, 255, 255)⟩

/-- A 1 x 1 mid-gray image. -/
def gray1x1 : Image := ⟨1, 1, fun _ _ => (100, 100, 100)⟩

/-- A 1 x 1 orange-accent image. -/
def orange1x1 : Image := ⟨1, 1, fun _ _ => (200, 120, 30)⟩

/-! ## Integer bridges

The ℚ-valued definitions above mirror the source; the following lemmas
restate them with integer arithmetic so that concrete instances can be
evaluated by `decide`. -/

/-- Luminance scaled by 1000, as a natural number. -/
def lum1000 (r g b : ℕ) : ℕ := 299 * r + 587 * g + 114 * b

lemma luminance_eq (r g b : ℕ) : _luminance r g b = (lum1000 r g b : ℚ) / 1000 := by
  unfold _luminance lum1000
  push_cast
  norm_num
  ring

lemma luminance_lt_iff (r g b t : ℕ) :
    _luminance r g b < (t : ℚ) ↔ lum1000 r g b < 1000 * t := by
  rw [luminance_eq, div_lt_iff (by norm_num : (0:ℚ) < 1000)]
  constructor
  · intro h
    have h2 : (lum1000 r g b : ℚ) < ((1000 * t : ℕ) : ℚ) := by push_cast; linarith
    exact_mod_cast h2
  · intro h
    have h2 : (lum1000 r g b : ℚ) < ((1000 * t : ℕ) : ℚ) := by exact_mod_cast h
    push_cast at h2
    linarith

lemma is_foreground_eq (r g b : ℕ) :
    is_foreground_pixel r g b =
      (_is_orange_accent r g b || decide (lum1000 r g b < 205000)) := by
  unfold is_foreground_pixel
  by_cases h : _is_orange_accent r g b
  · simp [h]
  · simp only [h, if_false, Bool.false_or]
    have h2 : (205 : ℚ) = ((205 : ℕ) : ℚ) := by norm_num
    rw [h2]
    have h3 := luminance_lt_iff r g b 205
    norm_num at h3
    simp [h3]

/-- Integer version of `ofInterest`. -/
def ofInterestB (p : RGB) : Bool :=
  decide (1000 * (max p.1 (max p.2.1 p.2.2) - min p.1 (min p.2.1 p.2.2)) > 8925) ||
  decide (lum1000 p.1 p.2.1 p.2.2 < 220000)

lemma ofInterest_eq (p : RGB) : ofInterest p = ofInterestB p := by
  obtain ⟨r, g, b⟩ := p
  unfold ofInterest ofInterestB
  simp only []
  have hlum : _luminance r g b < CROP_LUM_THRESH ↔ lum1000 r g b < 220000 := by
    unfold CROP_LUM_THRESH
    rw [show (220.0 : ℚ) = ((220 : ℕ) : ℚ) by norm_num, luminance_lt_iff]
  by_cases h : max r (max g b) > 0
  · rw [if_pos h]
    have hsat : ((max r (max g b) - min r (min g b) : ℕ) : ℚ) / 255 > CROP_SAT_THRESH ↔
        1000 * (max r (max g b) - min r (min g b)) > 8925 := by
      unfold CROP_SAT_THRESH
      rw [gt_iff_lt, show (0.035 : ℚ) = 35 / 1000 by norm_num,
        div_lt_div_iff (by norm_num) (by norm_num)]
      constructor
      · intro h2
        have h3 : ((8925 : ℕ) : ℚ) < ((1000 * (max r (max g b) - min r (min g b)) : ℕ) : ℚ) := by
          push_cast
          linarith
        exact_mod_cast h3
      · intro h2
        have h3 : ((8925 : ℕ) : ℚ) < ((1000 * (max r (max g b) - min r (min g b)) : ℕ) : ℚ) := by
          exact_mod_cast h2
        push_cast at h3
        linarith
    congr 1
    · exact decide_eq_decide.mpr hsat
    · exact decide_eq_decide.mpr hlum
  · rw [if_neg h]
    congr 1
    · apply decide_eq_decide.mpr
      apply iff_of_false
      · unfold CROP_SAT_THRESH
        norm_num
      · have h0 : r = 0 ∧ g = 0 ∧ b = 0 := by omega
        obtain ⟨hr, hg, hb⟩ := h0
        subst hr; subst hg; subst hb
        decide
    · exact decide_eq_decide.mpr hlum

/-- Integer version of `scanStep`. -/
def scanStepB (px : ℕ → ℕ → RGB) (st : Box) (p : ℕ × ℕ) : Box :=
  if ofInterestB (px p.1 p.2) then
    ⟨min st.min_x p.1, min st.min_y p.2, max st.max_x p.1, max st.max_y p.2⟩
  else st

/-- Integer version of `scanBox`. -/
def scanBoxB (px : ℕ → ℕ → RGB) (sw sh : ℕ) : Box :=
  (scanPositions sw sh).foldl (scanStepB px) ⟨sw, sh, 0, 0⟩

lemma scanStep_eq (px : ℕ → ℕ → RGB) (st : Box) (p : ℕ × ℕ) :
    scanStep px st p = scanStepB px st p := by
  unfold scanStep scanStepB
  rw [ofInterest_eq]

lemma foldl_congr_fn {α β : Type} (f g : α → β → α) (h : ∀ st p, f st p = g st p) :
    ∀ (l : List β) (st : α), l.foldl f st = l.foldl g st := by
  intro l
  induction l with
  | nil => intro st; rfl
  | cons a t ih =>
    intro st
    simp only [List.foldl_cons, h st a, ih]

lemma scanBox_eq (px : ℕ → ℕ → RGB) (sw sh : ℕ) : scanBox px sw sh = scanBoxB px sw sh :=
  foldl_congr_fn _ _ (scanStep_eq px) _ _

lemma pyInt_nat_div (a b : ℕ) : pyInt ((a : ℚ) / (b : ℚ)) = ((a / b : ℕ) : ℤ) := by
  rw [pyInt_of_nonneg (by positivity)]
  exact_mod_cast Nat.floor_div_nat (α := ℚ) a b

lemma pyInt_mul105 (r : ℕ) : pyInt ((r : ℚ) * 1.05) = ((r * 105 / 100 : ℕ) : ℤ) := by
  rw [show ((r : ℚ) * 1.05) = ((r * 105 : ℕ) : ℚ) / ((100 : ℕ) : ℚ) by push_cast; norm_num; ring]
  exact pyInt_nat_div _ _

lemma pyInt_lum055 (r g b : ℕ) :
    pyInt (_luminance r g b * 0.55) = ((lum1000 r g b * 55 / 100000 : ℕ) : ℤ) := by
  rw [show (_luminance r g b * 0.55) = ((lum1000 r g b * 55 : ℕ) : ℚ) / ((100000 : ℕ) : ℚ) by
    rw [luminance_eq]; push_cast; norm_num; ring]
  exact pyInt_nat_div _ _

lemma pyInt_lum (r g b : ℕ) : pyInt (_luminance r g b) = ((lum1000 r g b / 1000 : ℕ) : ℤ) := by
  rw [show (_luminance r g b) = ((lum1000 r g b : ℕ) : ℚ) / ((1000 : ℕ) : ℚ) by
    rw [luminance_eq]; push_cast; ring]
  exact pyInt_nat_div _ _

/-- Integer value of one gradient channel at row `y` of `height`
(for `t = 49`, `bt = 20` and `y < height`). -/
lemma gradChan_eq (height y : ℕ) (hy : y < height) :
    gradChan 49 20 height y = (((49 * height - 29 * y) / height : ℕ) : ℤ) := by
  unfold gradChan
  have h0 : (0 : ℚ) < (height : ℚ) := by
    have : 0 < height := by omega
    exact_mod_cast this
  rw [show ((49 : ℤ) : ℚ) + (((20 : ℤ) : ℚ) - ((49 : ℤ) : ℚ)) * ((y : ℚ) / (height : ℚ))
      = ((49 * height - 29 * y : ℕ) : ℚ) / ((height : ℕ) : ℚ) by
    rw [Nat.cast_sub (by nlinarith)]
    push_cast
    field_simp
    ring]
  exact pyInt_nat_div _ _

/-! ## Evaluation helpers for concrete images -/

lemma cropScale_eq_one (w h : ℕ) (h1 : 0 < max w h) (h2 : max w h ≤ 700) :
    cropScale w h = 1 := by
  unfold cropScale CROP_DOWNSCALE_MAX
  rw [min_eq_left]
  rw [le_div_iff (by exact_mod_cast h1), one_mul]
  exact_mod_cast h2

lemma scaledDim_one (d : ℕ) : scaledDim d 1 = max 1 d := by
  unfold scaledDim
  rw [mul_one, pyRound_natCast]
  simp

lemma smallW_of_le (img : Image) (h1 : 0 < max img.width img.height)
    (h2 : max img.width img.height ≤ 700) : smallW img = max 1 img.width := by
  unfold smallW
  rw [cropScale_eq_one _ _ h1 h2, scaledDim_one]

lemma smallH_of_le (img : Image) (h1 : 0 < max img.width img.height)
    (h2 : max img.width img.height ≤ 700) : smallH img = max 1 img.height := by
  unfold smallH
  rw [cropScale_eq_one _ _ h1 h2, scaledDim_one]

/-! ## Scan fold lemmas -/

lemma scan_mono (px : ℕ → ℕ → RGB) :
    ∀ (l : List (ℕ × ℕ)) (st : Box),
      (l.foldl (scanStep px) st).min_x ≤ st.min_x ∧
      (l.foldl (scanStep px) st).min_y ≤ st.min_y ∧
      st.max_x ≤ (l.foldl (scanStep px) st).max_x ∧
      st.max_y ≤ (l.foldl (scanStep px) st).max_y := by
  intro l
  induction l with
  | nil => exact fun st => ⟨le_refl _, le_refl _, le_refl _, le_refl _⟩
  | cons a t ih =>
    intro st
    obtain ⟨i1, i2, i3, i4⟩ := ih (scanStep px st a)
    have hstep : (scanStep px st a).min_x ≤ st.min_x ∧ (scanStep px st a).min_y ≤ st.min_y ∧
        st.max_x ≤ (scanStep px st a).max_x ∧ st.max_y ≤ (scanStep px st a).max_y := by
      unfold scanStep
      split
      · exact ⟨min_le_left _ _, min_le_left _ _, le_max_left _ _, le_max_left _ _⟩
      · exact ⟨le_refl _, le_refl _, le_refl _, le_refl _⟩
    simp only [List.foldl_cons]
    exact ⟨le_trans i1 hstep.1, le_trans i2 hstep.2.1,
      le_trans hstep.2.2.1 i3, le_trans hstep.2.2.2 i4⟩

lemma scan_contains (px : ℕ → ℕ → RGB) :
    ∀ (l : List (ℕ × ℕ)) (st : Box) (p : ℕ × ℕ), p ∈ l →
      ofInterest (px p.1 p.2) = true →
      (l.foldl (scanStep px) st).min_x ≤ p.1 ∧ p.1 ≤ (l.foldl (scanStep px) st).max_x ∧
      (l.foldl (scanStep px) st).min_y ≤ p.2 ∧ p.2 ≤ (l.foldl (scanStep px) st).max_y := by
  intro l
  induction l with
  | nil => exact fun st p hp _ => absurd hp (List.not_mem_nil p)
  | cons a t ih =>
    intro st p hp hq
    simp only [List.foldl_cons]
    rcases List.mem_cons.mp hp with h | h
    · subst h
      have hstep : (scanStep px st p).min_x ≤ p.1 ∧ p.1 ≤ (scanStep px st p).max_x ∧
          (scanStep px st p).min_y ≤ p.2 ∧ p.2 ≤ (scanStep px st p).max_y := by
        unfold scanStep
        rw [if_pos hq]
        exact ⟨min_le_right _ _, le_max_right _ _, min_le_right _ _, le_max_right _ _⟩
      obtain ⟨m1, m2, m3, m4⟩ := scan_mono px t (scanStep px st p)
      exact ⟨le_trans m1 hstep.1, le_trans hstep.2.1 m3,
        le_trans m2 hstep.2.2.1, le_trans hstep.2.2.2 m4⟩
    · exact ih (scanStep px st a) p h hq

lemma scan_unchanged (px : ℕ → ℕ → RGB) :
    ∀ (l : List (ℕ × ℕ)) (st : Box),
      (∀ p ∈ l, ofInterest (px p.1 p.2) = false) → l.foldl (scanStep px) st = st := by
  intro l
  induction l with
  | nil => exact fun st _ => rfl
  | cons a t ih =>
    intro st h
    simp only [List.foldl_cons]
    have ha : scanStep px st a = st := by
      unfold scanStep
      rw [if_neg]
      rw [h a (List.mem_cons_self a t)]
      simp
    rw [ha]
    exact ih st fun p hp => h p (List.mem_cons_of_mem a hp)

lemma scan_attains (px : ℕ → ℕ → RGB) :
    ∀ (l : List (ℕ × ℕ)) (st : Box),
      ((l.foldl (scanStep px) st).min_x = st.min_x ∨
        ∃ p ∈ l, ofInterest (px p.1 p.2) = true ∧ (l.foldl (scanStep px) st).min_x = p.1) ∧
      ((l.foldl (scanStep px) st).min_y = st.min_y ∨
        ∃ p ∈ l, ofInterest (px p.1 p.2) = true ∧ (l.foldl (scanStep px) st).min_y = p.2) ∧
      ((l.foldl (scanStep px) st).max_x = st.max_x ∨
        ∃ p ∈ l, ofInterest (px p.1 p.2) = true ∧ (l.foldl (scanStep px) st).max_x = p.1) ∧
      ((l.foldl (scanStep px) st).max_y = st.max_y ∨
        ∃ p ∈ l, ofInterest (px p.1 p.2) = true ∧ (l.foldl (scanStep px) st).max_y = p.2) := by
  intro l
  induction l with
  | nil => exact fun st => ⟨Or.inl rfl, Or.inl rfl, Or.inl rfl, Or.inl rfl⟩
  | cons a t ih =>
    intro st
    simp only [List.foldl_cons]
    by_cases hofa : ofInterest (px a.1 a.2) = true
    · obtain ⟨i1, i2, i3, i4⟩ := ih (scanStep px st a)
      have hstep : (scanStep px st a).min_x = min st.min_x a.1 ∧
          (scanStep px st a).min_y = min st.min_y a.2 ∧
          (scanStep px st a).max_x = max st.max_x a.1 ∧
          (scanStep px st a).max_y = max st.max_y a.2 := by
        unfold scanStep
        rw [if_pos hofa]
        exact ⟨rfl, rfl, rfl, rfl⟩
      refine ⟨?_, ?_, ?_, ?_⟩
      · rcases i1 with h | ⟨p, hp, hq, he⟩
        · rw [hstep.1] at h
          rcases le_total st.min_x a.1 with hc | hc
          · exact Or.inl (h.trans (min_eq_left hc))
          · exact Or.inr ⟨a, List.mem_cons_self a t, hofa, h.trans (min_eq_right hc)⟩
        · exact Or.inr ⟨p, List.mem_cons_of_mem a hp, hq, he⟩
      · rcases i2 with h | ⟨p, hp, hq, he⟩
        · rw [hstep.2.1] at h
          rcases le_total st.min_y a.2 with hc | hc
          · exact Or.inl (h.trans (min_eq_left hc))
          · exact Or.inr ⟨a, List.mem_cons_self a t, hofa, h.trans (min_eq_right hc)⟩
        · exact Or.inr ⟨p, List.mem_cons_of_mem a hp, hq, he⟩
      · rcases i3 with h | ⟨p, hp, hq, he⟩
        · rw [hstep.2.2.1] at h
          rcases le_total st.max_x a.1 with hc | hc
          · exact Or.inr ⟨a, List.mem_cons_self a t, hofa, h.trans (max_eq_right hc)⟩
          · exact Or.inl (h.trans (max_eq_left hc))
        · exact Or.inr ⟨p, List.mem_cons_of_mem a hp, hq, he⟩
      · rcases i4 with h | ⟨p, hp, hq, he⟩
        · rw [hstep.2.2.2] at h
          rcases le_total st.max_y a.2 with hc | hc
          · exact Or.inr ⟨a, List.mem_cons_self a t, hofa, h.trans (max_eq_right hc)⟩
          · exact Or.inl (h.trans (max_eq_left hc))
        · exact Or.inr ⟨p, List.mem_cons_of_mem a hp, hq, he⟩
    · have hstep : scanStep px st a = st := by
        unfold scanStep
        rw [if_neg hofa]
      rw [hstep]
      obtain ⟨i1, i2, i3, i4⟩ := ih st
      refine ⟨?_, ?_, ?_, ?_⟩
      · rcases i1 with h | ⟨p, hp, hq, he⟩
        · exact Or.inl h
        · exact Or.inr ⟨p, List.mem_cons_of_mem a hp, hq, he⟩
      · rcases i2 with h | ⟨p, hp, hq, he⟩
        · exact Or.inl h
        · exact Or.inr ⟨p, List.mem_cons_of_mem a hp, hq, he⟩
      · rcases i3 with h | ⟨p, hp, hq, he⟩
        · exact Or.inl h
        · exact Or.inr ⟨p, List.mem_cons_of_mem a hp, hq, he⟩
      · rcases i4 with h | ⟨p, hp, hq, he⟩
        · exact Or.inl h
        · exact Or.inr ⟨p, List.mem_cons_of_mem a hp, hq, he⟩

lemma mem_scanPositions (sw sh x y : ℕ) :
    (x, y) ∈ scanPositions sw sh ↔ x < sw ∧ y < sh := by
  unfold scanPositions
  constructor
  · intro h
    obtain ⟨b, hb, hmem⟩ := List.mem_flatMap.mp h
    obtain ⟨c, hc, heq⟩ := List.mem_map.mp hmem
    obtain ⟨h1, h2⟩ := Prod.mk.injEq .. ▸ heq
    cases heq
    exact ⟨List.mem_range.mp hc, List.mem_range.mp hb⟩
  · intro ⟨h1, h2⟩
    exact List.mem_flatMap.mpr ⟨y, List.mem_range.mpr h2,
      List.mem_map.mpr ⟨x, List.mem_range.mpr h1, rfl⟩⟩

/-! ## Box lemmas for the cropper -/

lemma cropBox_contains (resample : Resampler) (img : Image) (x y : ℕ)
    (hx : x < smallW img) (hy : y < smallH img)
    (hq : ofInterest (smallPx resample img x y) = true) :
    (cropBox resample img).min_x ≤ x ∧ x ≤ (cropBox resample img).max_x ∧
    (cropBox resample img).min_y ≤ y ∧ y ≤ (cropBox resample img).max_y := by
  unfold cropBox scanBox
  exact scan_contains (smallPx resample img) _ _ (x, y)
    ((mem_scanPositions _ _ x y).mpr ⟨hx, hy⟩) hq

lemma cropBox_no_interest (resample : Resampler) (img : Image)
    (h : ∀ x y, x < smallW img → y < smallH img →
      ofInterest (smallPx resample img x y) = false) :
    cropBox resample img = ⟨smallW img, smallH img, 0, 0⟩ := by
  unfold cropBox scanBox
  exact scan_unchanged (smallPx resample img) _ _ fun p hp => by
    obtain ⟨h1, h2⟩ := (mem_scanPositions _ _ p.1 p.2).mp (by rw [Prod.mk.eta]; exact hp)
    exact h p.1 p.2 h1 h2

lemma cropBox_maxx_lt (resample : Resampler) (img : Image)
    (h : (cropBox resample img).max_x ≠ 0) : (cropBox resample img).max_x < smallW img := by
  have ha := (scan_attains (smallPx resample img) (scanPositions (smallW img) (smallH img))
    ⟨smallW img, smallH img, 0, 0⟩).2.2.1
  rcases ha with he | ⟨p, hp, _, he⟩
  · exact absurd he h
  · rw [show (List.foldl (scanStep (smallPx resample img))
        ⟨smallW img, smallH img, 0, 0⟩ (scanPositions (smallW img) (smallH img))) =
        cropBox resample img from rfl] at he
    rw [he]
    exact ((mem_scanPositions _ _ p.1 p.2).mp (by rw [Prod.mk.eta]; exact hp)).1

lemma cropBox_maxy_lt (resample : Resampler) (img : Image)
    (h : (cropBox resample img).max_y ≠ 0) : (cropBox resample img).max_y < smallH img := by
  have ha := (scan_attains (smallPx resample img) (scanPositions (smallW img) (smallH img))
    ⟨smallW img, smallH img, 0, 0⟩).2.2.2
  rcases ha with he | ⟨p, hp, _, he⟩
  · exact absurd he h
  · rw [show (List.foldl (scanStep (smallPx resample img))
        ⟨smallW img, smallH img, 0, 0⟩ (scanPositions (smallW img) (smallH img))) =
        cropBox resample img from rfl] at he
    rw [he]
    exact ((mem_scanPositions _ _ p.1 p.2).mp (by rw [Prod.mk.eta]; exact hp)).2

/-! ## Claim C5: the foreground classifier formula -/

/-- C5: for every (r, g, b) in [0,255]^3, `is_foreground_pixel` is true iff
the pixel is an accent pixel (r > 170, g > 80, b < 140, r - b > 80) or its
luminance 0.299r + 0.587g + 0.114b is below 205. -/
theorem classifier_formula (r g b : ℕ) (hr : r ≤ 255) (hg : g ≤ 255) (hb : b ≤ 255) :
    is_foreground_pixel r g b =
      (decide (r > 170 ∧ g > 80 ∧ b < 140 ∧ (r : ℤ) - (b : ℤ) > 80) ||
       decide (0.299 * (r : ℚ) + 0.587 * (g : ℚ) + 0.114 * (b : ℚ) < 205)) := by
  have hiff : (r > 170 ∧ g > 80 ∧ b < 140 ∧ (r : ℤ) - (b : ℤ) > 80) ↔
      _is_orange_accent r g b = true := by
    unfold _is_orange_accent
    simp [and_assoc]
  unfold is_foreground_pixel
  by_cases hacc : _is_orange_accent r g b = true
  · rw [if_pos hacc, decide_eq_true (hiff.mpr hacc), Bool.true_or]
  · rw [if_neg hacc, decide_eq_false (fun hc => hacc (hiff.mp hc)), Bool.false_or]
    rfl

/-- Witness for C5 at the concrete pixel (100, 100, 100). -/
theorem classifier_formula_witness :
    (100 ≤ 255 ∧ 100 ≤ 255 ∧ 100 ≤ 255) ∧
    is_foreground_pixel 100 100 100 =
      (decide (100 > 170 ∧ 100 > 80 ∧ 100 < 140 ∧ (100 : ℤ) - (100 : ℤ) > 80) ||
       decide (0.299 * ((100 : ℕ) : ℚ) + 0.587 * ((100 : ℕ) : ℚ) + 0.114 * ((100 : ℕ) : ℚ) < 205)) :=
  ⟨⟨by decide, by decide, by decide⟩,
    classifier_formula 100 100 100 (by decide) (by decide) (by decide)⟩

/-! ## Claim C6: background isolation in the recolorers -/

/-- C6: at every pixel position of the source whose pixel is classified
background, the dark variant shows exactly the synthetic gradient value of
that row, and the tinted variant shows exactly (0, 0, 0). -/
theorem background_isolation (src : Image) (x y : ℕ)
    (hx : x < src.width) (hy : y < src.height)
    (hbg : is_foreground_pixel (src.pixel x y).1 (src.pixel x y).2.1 (src.pixel x y).2.2 = false) :
    (create_dark_icon src).pixel x y = (create_dark_gradient (src.width, src.height)).pixel x y ∧
    (create_tinted_icon src).pixel x y = (0, 0, 0) := by
  constructor
  · simp [create_dark_icon, hbg]
  · simp [create_tinted_icon, hbg]

/-- Witness for C6: the white pixel (0,0) of `white3x3` is background. -/
theorem background_isolation_witness :
    (0 < white3x3.width ∧ 0 < white3x3.height ∧
      is_foreground_pixel (white3x3.pixel 0 0).1 (white3x3.pixel 0 0).2.1
        (white3x3.pixel 0 0).2.2 = false) ∧
    (create_dark_icon white3x3).pixel 0 0 =
      (create_dark_gradient (white3x3.width, white3x3.height)).pixel 0 0 ∧
    (create_tinted_icon white3x3).pixel 0 0 = (0, 0, 0) :=
  ⟨⟨by decide, by decide, by rw [is_foreground_eq]; decide⟩,
    background_isolation white3x3 0 0 (by decide) (by decide)
      (by rw [is_foreground_eq]; decide)⟩

/-! ## Claim C7: dark recoloring of non-accent foreground pixels -/

/-- C7: a foreground, non-accent source pixel becomes (240, 240, 240) in the
dark variant when its luminance is below 120, and otherwise the gray
(v, v, v) with v the integer part of luminance * 0.55 clamped to [70, 140]. -/
theorem dark_nonaccent_foreground (src : Image) (x y : ℕ)
    (hx : x < src.width) (hy : y < src.height)
    (hfg : is_foreground_pixel (src.pixel x y).1 (src.pixel x y).2.1 (src.pixel x y).2.2 = true)
    (hacc : _is_orange_accent (src.pixel x y).1 (src.pixel x y).2.1 (src.pixel x y).2.2 = false) :
    (create_dark_icon src).pixel x y =
      (if _luminance (src.pixel x y).1 (src.pixel x y).2.1 (src.pixel x y).2.2 < 120 then
        (240, 240, 240)
      else
        ((max 70 (min 140 (pyInt (_luminance (src.pixel x y).1 (src.pixel x y).2.1
            (src.pixel x y).2.2 * 0.55)))).toNat,
         (max 70 (min 140 (pyInt (_luminance (src.pixel x y).1 (src.pixel x y).2.1
            (src.pixel x y).2.2 * 0.55)))).toNat,
         (max 70 (min 140 (pyInt (_luminance (src.pixel x y).1 (src.pixel x y).2.1
            (src.pixel x y).2.2 * 0.55)))).toNat)) := by
  simp [create_dark_icon, hfg, hacc]

/-- Witness for C7: the gray pixel (100, 100, 100) of `gray1x1` is
foreground, not accent, with luminance 100 < 120. -/
theorem dark_nonaccent_foreground_witness :
    (0 < gray1x1.width ∧ 0 < gray1x1.height ∧
      is_foreground_pixel (gray1x1.pixel 0 0).1 (gray1x1.pixel 0 0).2.1
        (gray1x1.pixel 0 0).2.2 = true ∧
      _is_orange_accent (gray1x1.pixel 0 0).1 (gray1x1.pixel 0 0).2.1
        (gray1x1.pixel 0 0).2.2 = false) ∧
    (create_dark_icon gray1x1).pixel 0 0 =
      (if _luminance (gray1x1.pixel 0 0).1 (gray1x1.pixel 0 0).2.1
          (gray1x1.pixel 0 0).2.2 < 120 then (240, 240, 240)
      else
        ((max 70 (min 140 (pyInt (_luminance (gray1x1.pixel 0 0).1 (gray1x1.pixel 0 0).2.1
            (gray1x1.pixel 0 0).2.2 * 0.55)))).toNat,
         (max 70 (min 140 (pyInt (_luminance (gray1x1.pixel 0 0).1 (gray1x1.pixel 0 0).2.1
            (gray1x1.pixel 0 0).2.2 * 0.55)))).toNat,
         (max 70 (min 140 (pyInt (_luminance (gray1x1.pixel 0 0).1 (gray1x1.pixel 0 0).2.1
            (gray1x1.pixel 0 0).2.2 * 0.55)))).toNat)) :=
  ⟨⟨by decide, by decide, by rw [is_foreground_eq]; decide, by decide⟩,
    dark_nonaccent_foreground gray1x1 0 0 (by decide) (by decide)
      (by rw [is_foreground_eq]; decide) (by decide)⟩

/-! ## Claim C8: accent pixel recoloring at (200, 120, 30) -/

/-- C8: the source pixel (200, 120, 30) satisfies the accent predicate and
recolors to (210, 126, 30) in the dark variant (R and G scaled by 1.05 and
clamped to 255, B unchanged) and to (255, 255, 255) in the tinted variant. -/
theorem accent_recolor_200_120_30 :
    _is_orange_accent 200 120 30 = true ∧
    (create_dark_icon orange1x1).pixel 0 0 = (210, 126, 30) ∧
    (create_tinted_icon orange1x1).pixel 0 0 = (255, 255, 255) := by
  have hfg : is_foreground_pixel 200 120 30 = true := by
    rw [is_foreground_eq]
    decide
  have hacc : _is_orange_accent 200 120 30 = true := by decide
  refine ⟨hacc, ?_, ?_⟩
  · have hp : orange1x1.pixel 0 0 = (200, 120, 30) := rfl
    simp only [create_dark_icon, hp]
    simp only [hfg, hacc, if_true]
    rw [pyInt_mul105 200, pyInt_mul105 120]
    decide
  · have hp : orange1x1.pixel 0 0 = (200, 120, 30) := rfl
    simp [create_tinted_icon, hp, hfg, hacc]

/-! ## Claim C9: output sizing -/

/-- C9: for every source image, the light variant is 1024 x 1024, and the
dark and tinted variants, built from the light variant as in `main`, are
1024 x 1024 as well. -/
theorem output_sizing (resample : Resampler) (img : Image) :
    (create_light_icon resample img).width = 1024 ∧
    (create_light_icon resample img).height = 1024 ∧
    (create_dark_icon (create_light_icon resample img)).width = 1024 ∧
    (create_dark_icon (create_light_icon resample img)).height = 1024 ∧
    (create_tinted_icon (create_light_icon resample img)).width = 1024 ∧
    (create_tinted_icon (create_light_icon resample img)).height = 1024 :=
  ⟨rfl, rfl, rfl, rfl, rfl, rfl⟩

/-! ## Claim C2: degenerate fallback returns the input -/

/-- Helper: with no of-interest pixel in the scan the cropper is the
identity. -/
lemma crop_unchanged_of_no_interest (resample : Resampler) (img : Image)
    (h : ∀ x y, x < smallW img → y < smallH img →
      ofInterest (smallPx resample img x y) = false) :
    crop_to_gradient_tile_square resample img = img := by
  unfold crop_to_gradient_tile_square
  rw [cropBox_no_interest resample img h]
  rw [if_pos (Or.inl (Nat.zero_le _))]

/-- C2: if no pixel of the downscaled scan is of interest, the cropper
returns an image identical (in width, height and pixel content) to the
input. -/
theorem degenerate_fallback (resample : Resampler) (img : Image)
    (h : ∀ x y, x < smallW img → y < smallH img →
      ofInterest (smallPx resample img x y) = false) :
    crop_to_gradient_tile_square resample img = img :=
  crop_unchanged_of_no_interest resample img h

/-- Witness for C2: the uniformly white 3 x 3 image comes back unchanged. -/
theorem degenerate_fallback_witness :
    ofInterest (smallPx resampleNearest white3x3 0 0) = false ∧
    crop_to_gradient_tile_square resampleNearest white3x3 = white3x3 := by
  have hpix : ∀ a b, white3x3.pixel a b = (255, 255, 255) := fun _ _ => rfl
  have hq : ∀ x y, ofInterest (smallPx resampleNearest white3x3 x y) = false := by
    intro x y
    unfold smallPx
    rw [ofInterest_eq]
    simp only [resampleNearest, hpix]
    decide
  exact ⟨hq 0 0,
    degenerate_fallback resampleNearest white3x3 (fun x y _ _ => hq x y)⟩

/-! ## Claim C4: scan box containment and minimality -/

/-- The attainment facts of `scan_attains`, restated for `cropBox`. -/
lemma cropBox_attains (resample : Resampler) (img : Image) :
    ((cropBox resample img).min_x = smallW img ∨
      ∃ p ∈ scanPositions (smallW img) (smallH img),
        ofInterest (smallPx resample img p.1 p.2) = true ∧
        (cropBox resample img).min_x = p.1) ∧
    ((cropBox resample img).min_y = smallH img ∨
      ∃ p ∈ scanPositions (smallW img) (smallH img),
        ofInterest (smallPx resample img p.1 p.2) = true ∧
        (cropBox resample img).min_y = p.2) ∧
    ((cropBox resample img).max_x = 0 ∨
      ∃ p ∈ scanPositions (smallW img) (smallH img),
        ofInterest (smallPx resample img p.1 p.2) = true ∧
        (cropBox resample img).max_x = p.1) ∧
    ((cropBox resample img).max_y = 0 ∨
      ∃ p ∈ scanPositions (smallW img) (smallH img),
        ofInterest (smallPx resample img p.1 p.2) = true ∧
        (cropBox resample img).max_y = p.2) :=
  scan_attains (smallPx resample img) (scanPositions (smallW img) (smallH img))
    ⟨smallW img, smallH img, 0, 0⟩

/-- C4: the tracked box contains every of-interest pixel of the downscaled
scan, and it is the minimal axis-aligned box doing so: any box (a, b, c, d)
containing all of-interest pixels contains it, once some pixel qualifies. -/
theorem scan_box_minimal (resample : Resampler) (img : Image) :
    (∀ x y, x < smallW img → y < smallH img →
      ofInterest (smallPx resample img x y) = true →
      (cropBox resample img).min_x ≤ x ∧ x ≤ (cropBox resample img).max_x ∧
      (cropBox resample img).min_y ≤ y ∧ y ≤ (cropBox resample img).max_y) ∧
    (∀ a b c d : ℕ,
      (∃ x y, x < smallW img ∧ y < smallH img ∧
        ofInterest (smallPx resample img x y) = true) →
      (∀ x y, x < smallW img → y < smallH img →
        ofInterest (smallPx resample img x y) = true →
        a ≤ x ∧ x ≤ c ∧ b ≤ y ∧ y ≤ d) →
      a ≤ (cropBox resample img).min_x ∧ (cropBox resample img).max_x ≤ c ∧
      b ≤ (cropBox resample img).min_y ∧ (cropBox resample img).max_y ≤ d) := by
  constructor
  · exact fun x y hx hy hq => cropBox_contains resample img x y hx hy hq
  · rintro a b c d ⟨x0, y0, hx0, hy0, hq0⟩ hcont
    obtain ⟨a1, a2, a3, a4⟩ := cropBox_attains resample img
    have hc0 := cropBox_contains resample img x0 y0 hx0 hy0 hq0
    refine ⟨?_, ?_, ?_, ?_⟩
    · rcases a1 with he | ⟨p, hp, hq, he⟩
      · exfalso
        have h1 := hc0.1
        omega
      · have hmem := (mem_scanPositions _ _ p.1 p.2).mp (by rw [Prod.mk.eta]; exact hp)
        have h1 := (hcont p.1 p.2 hmem.1 hmem.2 hq).1
        omega
    · rcases a3 with he | ⟨p, hp, hq, he⟩
      · omega
      · have hmem := (mem_scanPositions _ _ p.1 p.2).mp (by rw [Prod.mk.eta]; exact hp)
        have h1 := (hcont p.1 p.2 hmem.1 hmem.2 hq).2.1
        omega
    · rcases a2 with he | ⟨p, hp, hq, he⟩
      · exfalso
        have h1 := hc0.2.2.1
        omega
      · have hmem := (mem_scanPositions _ _ p.1 p.2).mp (by rw [Prod.mk.eta]; exact hp)
        have h1 := (hcont p.1 p.2 hmem.1 hmem.2 hq).2.2.1
        omega
    · rcases a4 with he | ⟨p, hp, hq, he⟩
      · omega
      · have hmem := (mem_scanPositions _ _ p.1 p.2).mp (by rw [Prod.mk.eta]; exact hp)
        have h1 := (hcont p.1 p.2 hmem.1 hmem.2 hq).2.2.2
        omega

/-- Witness for C4 at the all-black 4 x 4 image and its pixel (2, 1). -/
theorem scan_box_minimal_witness :
    (2 < smallW black4x4 ∧ 1 < smallH black4x4 ∧
      ofInterest (smallPx resampleNearest black4x4 2 1) = true) ∧
    ((cropBox resampleNearest black4x4).min_x ≤ 2 ∧
      2 ≤ (cropBox resampleNearest black4x4).max_x ∧
      (cropBox resampleNearest black4x4).min_y ≤ 1 ∧
      1 ≤ (cropBox resampleNearest black4x4).max_y) := by
  have hw : smallW black4x4 = 4 := by
    rw [smallW_of_le black4x4 (by decide) (by decide)]
    decide
  have hh : smallH black4x4 = 4 := by
    rw [smallH_of_le black4x4 (by decide) (by decide)]
    decide
  have hq : ofInterest (smallPx resampleNearest black4x4 2 1) = true := by
    rw [ofInterest_eq]
    unfold smallPx
    rw [hw, hh]
    decide
  exact ⟨⟨by rw [hw]; decide, by rw [hh]; decide, hq⟩,
    (scan_box_minimal resampleNearest black4x4).1 2 1 (by rw [hw]; decide)
      (by rw [hh]; decide) hq⟩

/-! ## Claim C1: squareness of the cropper output -/

/-- Helper: the pad-to-square step always yields a square image. -/
lemma padToSquareWhite_square (img : Image) :
    (padToSquareWhite img).width = (padToSquareWhite img).height := by
  unfold padToSquareWhite
  split
  · assumption
  · rfl

/-- Counterexample to C1: on the degenerate-fallback path the cropper
returns the input unchanged, so a white 2 x 1 input yields a 2 x 1 (not
square) output. -/
theorem cropper_not_always_square :
    (crop_to_gradient_tile_square resampleNearest white2x1).width ≠
      (crop_to_gradient_tile_square resampleNearest white2x1).height := by
  have hpix : ∀ a b, white2x1.pixel a b = (255, 255, 255) := fun _ _ => rfl
  have h : crop_to_gradient_tile_square resampleNearest white2x1 = white2x1 := by
    apply crop_unchanged_of_no_interest
    intro x y _ _
    unfold smallPx
    rw [ofInterest_eq]
    simp only [resampleNearest, hpix]
    decide
  rw [h]
  decide

/-- C1 (amended): whenever the scan box is non-degenerate — so a crop is
actually performed — the cropper output has equal width and height; on the
fallback path the output has the input's dimensions instead. -/
theorem cropper_square_nondegenerate (resample : Resampler) (img : Image)
    (hx : (cropBox resample img).min_x < (cropBox resample img).max_x)
    (hy : (cropBox resample img).min_y < (cropBox resample img).max_y) :
    (crop_to_gradient_tile_square resample img).width =
      (crop_to_gradient_tile_square resample img).height := by
  unfold crop_to_gradient_tile_square
  rw [if_neg (not_or.mpr ⟨Nat.not_le.mpr hx, Nat.not_le.mpr hy⟩)]
  exact padToSquareWhite_square _

/-- The scan box of the all-black 4 x 4 image. -/
lemma cropBox_black4x4 : cropBox resampleNearest black4x4 = ⟨0, 0, 3, 3⟩ := by
  have hw : smallW black4x4 = 4 := by
    rw [smallW_of_le black4x4 (by decide) (by decide)]
    decide
  have hh : smallH black4x4 = 4 := by
    rw [smallH_of_le black4x4 (by decide) (by decide)]
    decide
  unfold cropBox smallPx
  rw [hw, hh, scanBox_eq]
  decide

/-- Witness for the amended C1 at the all-black 4 x 4 image. -/
theorem cropper_square_nondegenerate_witness :
    ((cropBox resampleNearest black4x4).min_x < (cropBox resampleNearest black4x4).max_x ∧
      (cropBox resampleNearest black4x4).min_y < (cropBox resampleNearest black4x4).max_y) ∧
    (crop_to_gradient_tile_square resampleNearest black4x4).width =
      (crop_to_gradient_tile_square resampleNearest black4x4).height :=
  ⟨⟨by rw [cropBox_black4x4]; decide, by rw [cropBox_black4x4]; decide⟩,
    cropper_square_nondegenerate resampleNearest black4x4
      (by rw [cropBox_black4x4]; decide) (by rw [cropBox_black4x4]; decide)⟩

/-! ## Claim C3: when does the cropper proceed with a crop? -/

/-- The scan box of the 3 x 3 image with one black pixel at (1, 1). -/
lemma cropBox_img1dot : cropBox resampleNearest img1dot = ⟨1, 1, 1, 1⟩ := by
  have hw : smallW img1dot = 3 := by
    rw [smallW_of_le img1dot (by decide) (by decide)]
    decide
  have hh : smallH img1dot = 3 := by
    rw [smallH_of_le img1dot (by decide) (by decide)]
    decide
  unfold cropBox smallPx
  rw [hw, hh, scanBox_eq]
  decide

/-- Counterexample to C3: in `img1dot` the scan pixel (1, 1) is of interest
(a non-empty region), yet the cropper takes the degenerate fallback and
returns the original image unchanged, because the tracked box has
`max_x <= min_x`. -/
theorem single_pixel_fallback :
    ofInterest (smallPx resampleNearest img1dot 1 1) = true ∧
    1 < smallW img1dot ∧ 1 < smallH img1dot ∧
    crop_to_gradient_tile_square resampleNearest img1dot = img1dot := by
  have hw : smallW img1dot = 3 := by
    rw [smallW_of_le img1dot (by decide) (by decide)]
    decide
  have hh : smallH img1dot = 3 := by
    rw [smallH_of_le img1dot (by decide) (by decide)]
    decide
  refine ⟨?_, by rw [hw]; decide, by rw [hh]; decide, ?_⟩
  · unfold smallPx
    rw [hw, hh, ofInterest_eq]
    decide
  · unfold crop_to_gradient_tile_square
    rw [cropBox_img1dot]
    rw [if_pos (Or.inl (le_refl 1))]

/-- C3 (amended): the cropper proceeds with the crop — and the tracked box
satisfies `min_x < max_x` and `min_y < max_y` — exactly when the of-interest
pixels of the downscaled scan span at least two distinct columns and two
distinct rows; whenever the box fails that test (in particular when all
qualifying pixels lie in a single column or single row), the degenerate
branch fires and the original image is returned unchanged. -/
theorem crop_proceeds_iff_spanning (resample : Resampler) (img : Image) :
    ((∃ x1 y1 x2 y2, x1 < smallW img ∧ y1 < smallH img ∧
        x2 < smallW img ∧ y2 < smallH img ∧
        ofInterest (smallPx resample img x1 y1) = true ∧
        ofInterest (smallPx resample img x2 y2) = true ∧ x1 ≠ x2) ∧
      (∃ x1 y1 x2 y2, x1 < smallW img ∧ y1 < smallH img ∧
        x2 < smallW img ∧ y2 < smallH img ∧
        ofInterest (smallPx resample img x1 y1) = true ∧
        ofInterest (smallPx resample img x2 y2) = true ∧ y1 ≠ y2) ↔
      (cropBox resample img).min_x < (cropBox resample img).max_x ∧
      (cropBox resample img).min_y < (cropBox resample img).max_y) ∧
    ((cropBox resample img).min_x < (cropBox resample img).max_x ∧
      (cropBox resample img).min_y < (cropBox resample img).max_y →
      crop_to_gradient_tile_square resample img =
        cropBranch img (cropRectOf resample img)) ∧
    (¬ ((cropBox resample img).min_x < (cropBox resample img).max_x ∧
        (cropBox resample img).min_y < (cropBox resample img).max_y) →
      crop_to_gradient_tile_square resample img = img) := by
  refine ⟨⟨?_, ?_⟩, ?_, ?_⟩
  · rintro ⟨⟨x1, y1, x2, y2, hx1, hy1, hx2, hy2, hq1, hq2, hne⟩,
      ⟨u1, v1, u2, v2, hu1, hv1, hu2, hv2, hr1, hr2, hne2⟩⟩
    have c1 := cropBox_contains resample img x1 y1 hx1 hy1 hq1
    have c2 := cropBox_contains resample img x2 y2 hx2 hy2 hq2
    have c3 := cropBox_contains resample img u1 v1 hu1 hv1 hr1
    have c4 := cropBox_contains resample img u2 v2 hu2 hv2 hr2
    constructor
    · obtain ⟨a1, a2, _, _⟩ := c1
      obtain ⟨b1, b2, _, _⟩ := c2
      omega
    · obtain ⟨_, _, a3, a4⟩ := c3
      obtain ⟨_, _, b3, b4⟩ := c4
      omega
  · rintro ⟨hx, hy⟩
    obtain ⟨a1, a2, a3, a4⟩ := cropBox_attains resample img
    have hpx : ∃ p ∈ scanPositions (smallW img) (smallH img),
        ofInterest (smallPx resample img p.1 p.2) = true ∧
        (cropBox resample img).max_x = p.1 := by
      rcases a3 with he | h
      · exact absurd he (by omega)
      · exact h
    obtain ⟨p, hp, hqp, hep⟩ := hpx
    obtain ⟨hp1, hp2⟩ := (mem_scanPositions _ _ p.1 p.2).mp (by rw [Prod.mk.eta]; exact hp)
    have hqx : ∃ q ∈ scanPositions (smallW img) (smallH img),
        ofInterest (smallPx resample img q.1 q.2) = true ∧
        (cropBox resample img).min_x = q.1 := by
      rcases a1 with he | h
      · exact absurd he (by omega)
      · exact h
    obtain ⟨q, hq, hqq, heq⟩ := hqx
    obtain ⟨hq1, hq2⟩ := (mem_scanPositions _ _ q.1 q.2).mp (by rw [Prod.mk.eta]; exact hq)
    have hpy : ∃ t ∈ scanPositions (smallW img) (smallH img),
        ofInterest (smallPx resample img t.1 t.2) = true ∧
        (cropBox resample img).max_y = t.2 := by
      rcases a4 with he | h
      · exact absurd he (by omega)
      · exact h
    obtain ⟨t, ht, hqt, het⟩ := hpy
    obtain ⟨ht1, ht2⟩ := (mem_scanPositions _ _ t.1 t.2).mp (by rw [Prod.mk.eta]; exact ht)
    have hqy : ∃ u ∈ scanPositions (smallW img) (smallH img),
        ofInterest (smallPx resample img u.1 u.2) = true ∧
        (cropBox resample img).min_y = u.2 := by
      rcases a2 with he | h
      · exact absurd he (by omega)
      · exact h
    obtain ⟨u, hu, hqu, heu⟩ := hqy
    obtain ⟨hu1, hu2⟩ := (mem_scanPositions _ _ u.1 u.2).mp (by rw [Prod.mk.eta]; exact hu)
    exact ⟨⟨q.1, q.2, p.1, p.2, hq1, hq2, hp1, hp2, hqq, hqp, by omega⟩,
      ⟨u.1, u.2, t.1, t.2, hu1, hu2, ht1, ht2, hqu, hqt, by omega⟩⟩
  · rintro ⟨hx, hy⟩
    unfold crop_to_gradient_tile_square
    rw [if_neg (not_or.mpr ⟨Nat.not_le.mpr hx, Nat.not_le.mpr hy⟩)]
  · intro h
    unfold crop_to_gradient_tile_square
    rw [if_pos (by omega)]

/-- Witness for the amended C3 at the all-black 4 x 4 image: the spanning
condition holds there, and via the theorem the box is non-degenerate and the
cropper takes the crop branch. -/
theorem crop_proceeds_iff_spanning_witness :
    (ofInterest (smallPx resampleNearest black4x4 0 0) = true ∧
      ofInterest (smallPx resampleNearest black4x4 1 1) = true) ∧
    ((cropBox resampleNearest black4x4).min_x < (cropBox resampleNearest black4x4).max_x ∧
      (cropBox resampleNearest black4x4).min_y < (cropBox resampleNearest black4x4).max_y) ∧
    crop_to_gradient_tile_square resampleNearest black4x4 =
      cropBranch black4x4 (cropRectOf resampleNearest black4x4) := by
  have hw : smallW black4x4 = 4 := by
    rw [smallW_of_le black4x4 (by decide) (by decide)]
    decide
  have hh : smallH black4x4 = 4 := by
    rw [smallH_of_le black4x4 (by decide) (by decide)]
    decide
  have hq : ∀ x y, ofInterest (smallPx resampleNearest black4x4 x y) = true := by
    intro x y
    unfold smallPx
    rw [ofInterest_eq]
    simp only [resampleNearest]
    rw [show ∀ a b, black4x4.pixel a b = (0, 0, 0) from fun _ _ => rfl]
    decide
  have H := crop_proceeds_iff_spanning resampleNearest black4x4
  have hlt := H.1.mp
    ⟨⟨0, 0, 1, 0, by rw [hw]; decide, by rw [hh]; decide, by rw [hw]; decide,
      by rw [hh]; decide, hq 0 0, hq 1 0, by decide⟩,
     ⟨0, 0, 0, 1, by rw [hw]; decide, by rw [hh]; decide, by rw [hw]; decide,
      by rw [hh]; decide, hq 0 0, hq 0 1, by decide⟩⟩
  exact ⟨⟨hq 0 0, hq 1 1⟩, hlt, H.2.1 hlt⟩

/-! ## Claim C10: the clamped square rect is well formed -/

lemma side2Of_eq (inv : ℚ) (B : Box) :
    side2Of inv B = boxSide inv B - 2 * insetPx inv B := by
  unfold side2Of boxSide insLeft insRight insTop insBottom
  omega

lemma round_gap (a b : ℕ) (inv : ℚ) (hinv : 1 ≤ inv) (hab : a < b) :
    pyRound ((a : ℚ) * inv) + 1 ≤ pyRound (((b : ℚ) + 1) * inv) := by
  have f1 := pyRound_le ((a : ℚ) * inv)
  have f2 := le_pyRound (((b : ℚ) + 1) * inv)
  have h3 : ((a + 2 : ℕ) : ℚ) ≤ ((b + 1 : ℕ) : ℚ) := by
    exact_mod_cast (by omega : a + 2 ≤ b + 1)
  push_cast at h3
  have hinv0 : (0 : ℚ) ≤ inv := by linarith
  have hmul := mul_le_mul_of_nonneg_right h3 hinv0
  have hexp : ((a : ℚ) + 2) * inv = (a : ℚ) * inv + 2 * inv := by ring
  have h2inv : (2 : ℚ) ≤ 2 * inv := by linarith
  have hq : (pyRound ((a : ℚ) * inv) : ℚ) + 1 ≤ (pyRound (((b : ℚ) + 1) * inv) : ℚ) := by
    linarith
  exact_mod_cast hq

lemma pyRound_inset_small : pyRound ((1 : ℚ) * (CROP_INSET_PERCENT / 100)) = 0 := by
  have hc : ((1 : ℚ) * (CROP_INSET_PERCENT / 100)) = 3 / 50 := by
    norm_num [CROP_INSET_PERCENT]
  rw [hc]
  unfold pyRound
  rw [if_neg]
  · rw [round_eq]
    norm_num
  · rw [Int.fract]
    norm_num

lemma side2_ge_one (side : ℤ) (h1 : 1 ≤ side) :
    1 ≤ side - 2 * pyRound ((side : ℚ) * (CROP_INSET_PERCENT / 100)) := by
  rcases eq_or_lt_of_le h1 with he | h2
  · rw [← he, show (((1 : ℤ) : ℚ)) = (1 : ℚ) by norm_num, pyRound_inset_small]
    norm_num
  · have h2' : 2 ≤ side := h2
    have hc : (CROP_INSET_PERCENT / 100 : ℚ) = 3 / 50 := by
      norm_num [CROP_INSET_PERCENT]
    have f5 := pyRound_le ((side : ℚ) * (CROP_INSET_PERCENT / 100))
    rw [hc] at f5
    have hcast : (2 : ℚ) ≤ (side : ℚ) := by exact_mod_cast h2'
    have hpos : (0 : ℚ) <
        (side : ℚ) - 2 * (pyRound ((side : ℚ) * (CROP_INSET_PERCENT / 100)) : ℚ) := by
      rw [hc]
      linarith
    have : (0 : ℤ) < side - 2 * pyRound ((side : ℚ) * (CROP_INSET_PERCENT / 100)) := by
      exact_mod_cast (by push_cast; linarith [hpos] : ((0 : ℤ) : ℚ) <
        ((side - 2 * pyRound ((side : ℚ) * (CROP_INSET_PERCENT / 100)) : ℤ) : ℚ))
    omega

lemma dim_bound (d a b sd : ℕ) (scale inv : ℚ) (l0 r0 side inset side2 sq : ℤ)
    (hinv : 1 ≤ inv) (hsi : scale * inv = 1)
    (hab : a < b) (hbsd : b < sd)
    (hsd : ((sd : ℕ) : ℚ) ≤ (d : ℚ) * scale + 1/2)
    (hl0 : l0 = pyRound ((a : ℚ) * inv))
    (hr0 : r0 = pyRound (((b : ℚ) + 1) * inv))
    (hside : r0 - l0 ≤ side)
    (hside1 : 1 ≤ side)
    (hinset : inset = pyRound ((side : ℚ) * (CROP_INSET_PERCENT / 100)))
    (hside2 : side2 = side - 2 * inset)
    (hsq : sq = pyRound ((((l0 + inset : ℤ) : ℚ) + ((r0 - inset : ℤ) : ℚ)) / 2 -
      ((side2 : ℤ) : ℚ) / 2)) :
    sq ≤ (d : ℤ) ∧ 0 ≤ sq + side2 := by
  have hinv0 : (0 : ℚ) ≤ inv := by linarith
  have hc : (CROP_INSET_PERCENT / 100 : ℚ) = 3 / 50 := by
    norm_num [CROP_INSET_PERCENT]
  have f1 : (l0 : ℚ) ≤ (a : ℚ) * inv + 1/2 := by rw [hl0]; exact pyRound_le _
  have f2 : (a : ℚ) * inv - 1/2 ≤ (l0 : ℚ) := by rw [hl0]; exact le_pyRound _
  have f3 : (r0 : ℚ) ≤ ((b : ℚ) + 1) * inv + 1/2 := by rw [hr0]; exact pyRound_le _
  have f4 : ((b : ℚ) + 1) * inv - 1/2 ≤ (r0 : ℚ) := by rw [hr0]; exact le_pyRound _
  have f5 : (inset : ℚ) ≤ (side : ℚ) * (3/50) + 1/2 := by
    rw [hinset, ← hc]
    exact pyRound_le _
  have hQ : ((((l0 + inset : ℤ) : ℚ) + ((r0 - inset : ℤ) : ℚ)) / 2 - ((side2 : ℤ) : ℚ) / 2)
      = ((l0 : ℚ) + (r0 : ℚ)) / 2 - (side : ℚ) / 2 + (inset : ℚ) := by
    rw [hside2]
    push_cast
    ring
  have f7 : (sq : ℚ) ≤ ((l0 : ℚ) + (r0 : ℚ)) / 2 - (side : ℚ) / 2 + (inset : ℚ) + 1/2 := by
    rw [hsq]
    calc (pyRound ((((l0 + inset : ℤ) : ℚ) + ((r0 - inset : ℤ) : ℚ)) / 2 -
          ((side2 : ℤ) : ℚ) / 2) : ℚ)
        ≤ (((l0 + inset : ℤ) : ℚ) + ((r0 - inset : ℤ) : ℚ)) / 2 -
          ((side2 : ℤ) : ℚ) / 2 + 1/2 := pyRound_le _
      _ = ((l0 : ℚ) + (r0 : ℚ)) / 2 - (side : ℚ) / 2 + (inset : ℚ) + 1/2 := by rw [hQ]
  have f8 : ((l0 : ℚ) + (r0 : ℚ)) / 2 - (side : ℚ) / 2 + (inset : ℚ) - 1/2 ≤ (sq : ℚ) := by
    rw [hsq]
    calc ((l0 : ℚ) + (r0 : ℚ)) / 2 - (side : ℚ) / 2 + (inset : ℚ) - 1/2
        = (((l0 + inset : ℤ) : ℚ) + ((r0 - inset : ℤ) : ℚ)) / 2 -
          ((side2 : ℤ) : ℚ) / 2 - 1/2 := by rw [hQ]
      _ ≤ _ := le_pyRound _
  have f9 : (r0 : ℚ) - (l0 : ℚ) ≤ (side : ℚ) := by
    have : ((r0 - l0 : ℤ) : ℚ) ≤ ((side : ℤ) : ℚ) := by exact_mod_cast hside
    push_cast at this
    linarith
  have hA2 : (a : ℚ) * inv ≤ ((sd : ℚ) - 2) * inv := by
    apply mul_le_mul_of_nonneg_right _ hinv0
    have h4 : ((a + 2 : ℕ) : ℚ) ≤ ((sd : ℕ) : ℚ) := by
      exact_mod_cast (by omega : a + 2 ≤ sd)
    push_cast at h4
    linarith
  have hB2 : ((b : ℚ) + 1) * inv ≤ (sd : ℚ) * inv := by
    apply mul_le_mul_of_nonneg_right _ hinv0
    have h4 : ((b + 1 : ℕ) : ℚ) ≤ ((sd : ℕ) : ℚ) := by
      exact_mod_cast (by omega : b + 1 ≤ sd)
    push_cast at h4
    linarith
  have hA2' : (a : ℚ) * inv ≤ (sd : ℚ) * inv - 2 * inv := by
    have he : ((sd : ℚ) - 2) * inv = (sd : ℚ) * inv - 2 * inv := by ring
    linarith [hA2]
  have hS : (sd : ℚ) * inv ≤ (d : ℚ) + inv / 2 := by
    have e2 := mul_le_mul_of_nonneg_right hsd hinv0
    have e3 : ((d : ℚ) * scale + 1/2) * inv = (d : ℚ) * (scale * inv) + inv / 2 := by ring
    rw [e3, hsi, mul_one] at e2
    exact e2
  have h21 : 1 ≤ side2 := by
    rw [hside2, hinset]
    exact side2_ge_one side hside1
  have hl0n : (0 : ℤ) ≤ l0 := by
    rw [hl0]
    exact pyRound_nonneg (by positivity)
  have hr0n : (0 : ℤ) ≤ r0 := by
    rw [hr0]
    exact pyRound_nonneg (by positivity)
  constructor
  · have hlast : (sq : ℚ) ≤ (d : ℚ) + 3/25 := by linarith
    have h5 : ((sq : ℤ) : ℚ) < (((d : ℕ) : ℤ) : ℚ) + 1 := by push_cast; linarith
    have h6 : (sq : ℤ) < ((d : ℕ) : ℤ) + 1 := by exact_mod_cast h5
    omega
  · have hl0q : (0 : ℚ) ≤ (l0 : ℚ) := by exact_mod_cast hl0n
    have hr0q : (0 : ℚ) ≤ (r0 : ℚ) := by exact_mod_cast hr0n
    have h21q : (1 : ℚ) ≤ (side2 : ℚ) := by exact_mod_cast h21
    have hs2q : (side2 : ℚ) = (side : ℚ) - 2 * (inset : ℚ) := by
      rw [hside2]
      push_cast
      ring
    have hq0 : (0 : ℚ) ≤ (sq : ℚ) + (side2 : ℚ) := by linarith
    have : ((0 : ℤ) : ℚ) ≤ ((sq + side2 : ℤ) : ℚ) := by push_cast; linarith
    exact_mod_cast this

lemma cropScale_pos (w h : ℕ) (hw : 1 ≤ w) : 0 < cropScale w h := by
  unfold cropScale CROP_DOWNSCALE_MAX
  rw [lt_min_iff]
  constructor
  · norm_num
  · apply div_pos (by norm_num)
    exact_mod_cast (by omega : 0 < max w h)

lemma cropInv_ge_one (w h : ℕ) (hw : 1 ≤ w) : 1 ≤ cropInv (cropScale w h) := by
  unfold cropInv
  rw [le_div_iff (cropScale_pos w h hw), one_mul]
  exact min_le_left _ _

lemma scale_mul_inv (w h : ℕ) (hw : 1 ≤ w) :
    cropScale w h * cropInv (cropScale w h) = 1 := by
  unfold cropInv
  rw [mul_one_div]
  exact div_self (ne_of_gt (cropScale_pos w h hw))

lemma scaledDim_le (d : ℕ) (scale : ℚ) (h2 : 2 ≤ scaledDim d scale) :
    ((scaledDim d scale : ℕ) : ℚ) ≤ (d : ℚ) * scale + 1/2 := by
  unfold scaledDim at h2 ⊢
  have h3 : 2 ≤ (pyRound ((d : ℚ) * scale)).toNat := by omega
  have h4 : ((pyRound ((d : ℚ) * scale)).toNat : ℤ) = pyRound ((d : ℚ) * scale) :=
    Int.toNat_of_nonneg (by omega)
  have h5 : max 1 (pyRound ((d : ℚ) * scale)).toNat = (pyRound ((d : ℚ) * scale)).toNat := by
    omega
  rw [h5]
  have h6 := pyRound_le ((d : ℚ) * scale)
  calc (((pyRound ((d : ℚ) * scale)).toNat : ℕ) : ℚ)
      = ((pyRound ((d : ℚ) * scale) : ℤ) : ℚ) := by exact_mod_cast congrArg Int.cast h4
    _ ≤ (d : ℚ) * scale + 1/2 := h6

/-- C10: on the non-degenerate path, for any source image with positive
dimensions, the clamped square-crop rectangle is well formed and in bounds:
0 <= sq_left <= sq_right <= width and 0 <= sq_top <= sq_bottom <= height. -/
theorem crop_rect_wellformed (resample : Resampler) (img : Image)
    (hw : 1 ≤ img.width) (hh : 1 ≤ img.height)
    (hx : (cropBox resample img).min_x < (cropBox resample img).max_x)
    (hy : (cropBox resample img).min_y < (cropBox resample img).max_y) :
    0 ≤ (cropRectOf resample img).1 ∧
    (cropRectOf resample img).1 ≤ (cropRectOf resample img).2.2.1 ∧
    (cropRectOf resample img).2.2.1 ≤ (img.width : ℤ) ∧
    0 ≤ (cropRectOf resample img).2.1 ∧
    (cropRectOf resample img).2.1 ≤ (cropRectOf resample img).2.2.2 ∧
    (cropRectOf resample img).2.2.2 ≤ (img.height : ℤ) := by
  have hmaxx : (cropBox resample img).max_x < smallW img :=
    cropBox_maxx_lt resample img (by omega)
  have hmaxy : (cropBox resample img).max_y < smallH img :=
    cropBox_maxy_lt resample img (by omega)
  have hsw2 : 2 ≤ smallW img := by omega
  have hsh2 : 2 ≤ smallH img := by omega
  have hinv : 1 ≤ cropInv (cropScale img.width img.height) :=
    cropInv_ge_one img.width img.height hw
  have hsi : cropScale img.width img.height * cropInv (cropScale img.width img.height) = 1 :=
    scale_mul_inv img.width img.height hw
  have hsdw : ((smallW img : ℕ) : ℚ) ≤
      (img.width : ℚ) * cropScale img.width img.height + 1/2 :=
    scaledDim_le img.width (cropScale img.width img.height) hsw2
  have hsdh : ((smallH img : ℕ) : ℚ) ≤
      (img.height : ℚ) * cropScale img.width img.height + 1/2 :=
    scaledDim_le img.height (cropScale img.width img.height) hsh2
  set inv := cropInv (cropScale img.width img.height) with hinvdef
  set B := cropBox resample img with hBdef
  have hgap : rawLeft inv B + 1 ≤ rawRight inv B :=
    round_gap B.min_x B.max_x inv hinv hx
  have hside1 : 1 ≤ boxSide inv B := by
    have h1 : rawRight inv B - rawLeft inv B ≤ boxSide inv B := le_max_left _ _
    omega
  have hsqx : sqLeft0 inv B = pyRound
      ((((rawLeft inv B + insetPx inv B : ℤ) : ℚ) +
        ((rawRight inv B - insetPx inv B : ℤ) : ℚ)) / 2 -
       ((boxSide inv B - 2 * insetPx inv B : ℤ) : ℚ) / 2) := by
    unfold sqLeft0 cxOf insLeft insRight
    rw [side2Of_eq]
  have hsqy : sqTop0 inv B = pyRound
      ((((rawTop inv B + insetPx inv B : ℤ) : ℚ) +
        ((rawBottom inv B - insetPx inv B : ℤ) : ℚ)) / 2 -
       ((boxSide inv B - 2 * insetPx inv B : ℤ) : ℚ) / 2) := by
    unfold sqTop0 cyOf insTop insBottom
    rw [side2Of_eq]
  have hbx := dim_bound img.width B.min_x B.max_x (smallW img)
    (cropScale img.width img.height) inv
    (rawLeft inv B) (rawRight inv B) (boxSide inv B) (insetPx inv B)
    (boxSide inv B - 2 * insetPx inv B) (sqLeft0 inv B)
    hinv hsi hx hmaxx hsdw rfl rfl (le_max_left _ _) hside1 rfl rfl hsqx
  have hby := dim_bound img.height B.min_y B.max_y (smallH img)
    (cropScale img.width img.height) inv
    (rawTop inv B) (rawBottom inv B) (boxSide inv B) (insetPx inv B)
    (boxSide inv B - 2 * insetPx inv B) (sqTop0 inv B)
    hinv hsi hy hmaxy hsdh rfl rfl (le_max_right _ _) hside1 rfl rfl hsqy
  have h21 : 1 ≤ boxSide inv B - 2 * insetPx inv B := by
    rw [show insetPx inv B = pyRound ((boxSide inv B : ℚ) * (CROP_INSET_PERCENT / 100))
      from rfl]
    exact side2_ge_one _ hside1
  have hs2 : side2Of inv B = boxSide inv B - 2 * insetPx inv B := side2Of_eq inv B
  unfold cropRectOf cropRect
  rw [show cropInv (cropScale img.width img.height) = inv from rfl,
    show cropBox resample img = B from rfl]
  refine ⟨le_max_left _ _, ?_, min_le_left _ _, le_max_left _ _, ?_, min_le_left _ _⟩
  · apply le_min
    · exact max_le (by exact_mod_cast Nat.zero_le img.width) hbx.1
    · unfold sqRight0
      rw [hs2]
      apply max_le
      · omega
      · omega
  · apply le_min
    · exact max_le (by exact_mod_cast Nat.zero_le img.height) hby.1
    · unfold sqBottom0
      rw [hs2]
      apply max_le
      · omega
      · omega

/-- Witness for C10 at the all-black 4 x 4 image. -/
theorem crop_rect_wellformed_witness :
    (1 ≤ black4x4.width ∧ 1 ≤ black4x4.height ∧
      (cropBox resampleNearest black4x4).min_x < (cropBox resampleNearest black4x4).max_x ∧
      (cropBox resampleNearest black4x4).min_y < (cropBox resampleNearest black4x4).max_y) ∧
    (0 ≤ (cropRectOf resampleNearest black4x4).1 ∧
      (cropRectOf resampleNearest black4x4).1 ≤ (cropRectOf resampleNearest black4x4).2.2.1 ∧
      (cropRectOf resampleNearest black4x4).2.2.1 ≤ (black4x4.width : ℤ) ∧
      0 ≤ (cropRectOf resampleNearest black4x4).2.1 ∧
      (cropRectOf resampleNearest black4x4).2.1 ≤ (cropRectOf resampleNearest black4x4).2.2.2 ∧
      (cropRectOf resampleNearest black4x4).2.2.2 ≤ (black4x4.height : ℤ)) :=
  ⟨⟨by decide, by decide, by rw [cropBox_black4x4]; decide, by rw [cropBox_black4x4]; decide⟩,
    crop_rect_wellformed resampleNearest black4x4 (by decide) (by decide)
      (by rw [cropBox_black4x4]; decide) (by rw [cropBox_black4x4]; decide)⟩
